import Mathlib

set_option linter.unusedVariables false

/-!
# Verification of the PII detection-and-scoring engine

A shallow embedding of `pii_detector.py` (class `PIIDetector`): the
pattern-based detector, the column-name heuristic detector, the uniqueness
calculator, risk scoring and categorisation, recommendation generation, and
the per-column orchestration of `analyze_dataset`.

Cell values are modelled as `Option String` (`none` is a missing value);
ratios, confidences and risk scores are exact rationals.  The regular
expression engine is abstracted as a boolean oracle `Matcher`: `matcher t v`
models `re.search(pii_patterns[t], v) ≠ None`, i.e. pandas
`str.contains(pattern)` on one cell.  All selection, threshold and
reconciliation logic is embedded exactly as written in the source.
-/

namespace PII

/-- A dataset column: its name, its declared dtype (the source tests the
dtype string against `object`/`string`), and its ordered cell values, where
`none` models a missing (NaN) cell and textual cells are strings. -/
structure Column where
  name : String
  dtype : String
  values : List (Option String)
deriving Repr, DecidableEq

/-- The regex oracle: `matcher t v` models whether the regular expression
for PII type `t` (from `pii_patterns`) matches somewhere inside value `v`. -/
abbrev Matcher := String → String → Bool

/-- Keys of `pii_patterns`, in dict insertion order (source lines 14-26). -/
def pii_pattern_keys : List String :=
  ["EMAIL", "PHONE", "SSN", "CREDIT_CARD", "IP_ADDRESS", "URL",
   "DATE_OF_BIRTH", "NATIONAL_ID", "GPS_COORDINATES", "IBAN", "ADDRESS"]

/-- The fixed priority order of `detect_pattern_based` (source lines 118-119). -/
def priority_order : List String :=
  ["CREDIT_CARD", "SSN", "IBAN", "EMAIL", "PHONE", "IP_ADDRESS",
   "GPS_COORDINATES", "DATE_OF_BIRTH", "NATIONAL_ID", "ADDRESS", "URL"]

/-- `column_keywords` (source lines 29-42), in dict / list insertion order. -/
def column_keywords : List (String × List String) :=
  [("EMAIL", ["email", "e-mail", "mail", "email_address", "e_mail"]),
   ("PHONE", ["phone", "telephone", "mobile", "cell", "contact_number",
              "phone_num", "phone_number"]),
   ("NAME", ["name", "firstname", "lastname", "first_name", "last_name",
             "full_name", "username", "patient_name", "customer_name",
             "employee_name"]),
   ("ID", ["patient_id", "customer_id", "employee_id", "user_id",
           "person_id", "id_number", "national_id"]),
   ("DOB", ["dob", "birth", "birthdate", "date_of_birth", "birthday",
            "birth_date"]),
   ("ADDRESS", ["address", "street", "location", "residence",
                "home_address", "street_address", "physical_address"]),
   ("SSN", ["ssn", "social_security", "social_security_number"]),
   ("CREDIT_CARD", ["credit_card", "cc", "card_number", "creditcard",
                    "card_num"]),
   ("GENDER", ["gender", "sex"]),
   ("AGE", ["age"]),
   ("SALARY", ["salary", "income", "wage", "compensation", "pay"]),
   ("MEDICAL", ["medical_condition", "diagnosis", "medication", "blood_type",
                "medical", "condition", "disease", "illness"])]

/-- `impact_scores` (source lines 45-64). -/
def impact_scores : List (String × ℕ) :=
  [("SSN", 5), ("CREDIT_CARD", 5), ("NATIONAL_ID", 5), ("MEDICAL", 5),
   ("EMAIL", 4), ("PHONE", 4), ("ADDRESS", 4), ("GPS_COORDINATES", 4),
   ("IBAN", 4), ("DATE_OF_BIRTH", 3), ("DOB", 3), ("NAME", 3), ("SALARY", 3),
   ("ID", 2), ("AGE", 2), ("GENDER", 2), ("IP_ADDRESS", 2), ("URL", 1)]

/-- The non-PII exclusion list of `detect_column_name_heuristic`
(source lines 146-149). -/
def non_pii_keywords : List String :=
  ["essay", "description", "comment", "notes", "text", "content",
   "body", "message", "post", "article", "paragraph", "statement",
   "summary", "review", "feedback", "provider", "company", "organization",
   "department", "title", "category", "type", "status", "role"]

/-- Python's `str.lower()` (ASCII case folding, as in the column names the
engine is given). -/
def pyLower (s : String) : String :=
  ⟨s.data.map Char.toLower⟩

/-- An ASCII whitespace character, as stripped by Python's `str.strip()`. -/
def isPySpace (c : Char) : Bool :=
  c = ' ' || c = '\t' || c = '\n' || c = '\r' || c = '\x0b' || c = '\x0c'

/-- Python's `str.strip()`: drop whitespace from both ends. -/
def pyStrip (s : String) : String :=
  ⟨((s.data.dropWhile isPySpace).reverse.dropWhile isPySpace).reverse⟩

/-- Substring search on character lists: does `needle` occur contiguously
inside `hay`?  (Python's `needle in hay` on strings.) -/
def containsSub (hay needle : List Char) : Bool :=
  match hay with
  | [] => needle.isEmpty
  | c :: t => needle.isPrefixOf (c :: t) || containsSub t needle

/-- Python's `needle in hay` on strings. -/
def pyIn (needle hay : String) : Bool :=
  containsSub hay.data needle.data

/-- Python's `str.split('_')` on character lists: the (possibly empty)
segments between underscores; always non-empty, `[[]]` on the empty string. -/
def splitUnd : List Char → List (List Char)
  | [] => [[]]
  | c :: rest =>
    match splitUnd rest with
    | [] => [[]]
    | s :: ss => if c = '_' then [] :: s :: ss else (c :: s) :: ss

/-- `column_name_lower.split('_')[0]`. -/
def firstSeg (n : String) : String :=
  ⟨(splitUnd n.data).headD []⟩

/-- `column_name_lower.split('_')[-1]`. -/
def lastSeg (n : String) : String :=
  ⟨(splitUnd n.data).getLastD []⟩

/-- `string_data = column_data.dropna().astype(str)` (source line 81). -/
def stringData (c : Column) : List String :=
  c.values.filterMap id

/-- The mean string length of the non-missing values (source line 87). -/
def avgLength (vals : List String) : ℚ :=
  ((vals.map String.length).sum : ℚ) / (vals.length : ℚ)

/-- The fraction of non-missing values the pattern of type `t` matches
(source lines 98-99). -/
def matchRatio (matcher : Matcher) (vals : List String) (t : String) : ℚ :=
  (((vals.filter (fun v => matcher t v)).length : ℚ)) / (vals.length : ℚ)

/-- The `pattern_matches` dict built by the pattern-candidate loop
(source lines 95-112): a pattern is recorded with its match ratio iff the
ratio exceeds 0.3 and the first sampled value has length at most 200. -/
def patternMatchesList (matcher : Matcher) (vals : List String) :
    List (String × ℚ) :=
  pii_pattern_keys.filterMap (fun t =>
    if matchRatio matcher vals t > 3/10 then
      if (vals.headD "").length > 200 then none
      else some (t, matchRatio matcher vals t)
    else none)

/-- The best-match selection of `detect_pattern_based` (source lines
114-131): first type in `priority_order` present with ratio above 0.5,
otherwise the first-encountered maximal-ratio entry if above 0.5. -/
def selectBest : List (String × ℚ) → Option String × ℚ
  | [] => (none, 0)
  | x :: xs =>
    match priority_order.findSome? (fun t =>
        match List.lookup t (x :: xs) with
        | some r => if r > 1/2 then some (t, r) else none
        | none => none) with
    | some tr => (some tr.1, tr.2)
    | none =>
      let best := xs.foldl (fun acc y => if y.2 > acc.2 then y else acc) x
      if best.2 > 1/2 then (some best.1, best.2) else (none, 0)

/-- `PIIDetector.detect_pattern_based` (source lines 66-131). -/
def detect_pattern_based (matcher : Matcher) (c : Column) :
    Option String × ℚ :=
  if ¬ (c.dtype = "object" ∨ c.dtype = "string") then (none, 0)
  else
    let string_data := stringData c
    if string_data.length = 0 then (none, 0)
    else if avgLength string_data > 500 then (none, 0)
    else selectBest (patternMatchesList matcher string_data)

/-- The keyword-matching loop of `detect_column_name_heuristic`
(source lines 165-176), over an explicit list of (type, keyword) pairs. -/
def matchLoop (n : String) : List (String × String) → Option String × ℚ
  | [] => (none, 0)
  | (t, kw) :: rest =>
    if pyIn kw n then
      if kw = n then (some t, 9/10)
      else if pyIn ("_" ++ kw) n || pyIn (kw ++ "_") n then (some t, 8/10)
      else if kw = lastSeg n ∨ kw = firstSeg n then (some t, 7/10)
      else matchLoop n rest
    else matchLoop n rest

/-- The flat list of (PII type, keyword) pairs (source lines 157-160). -/
def all_keyword_pairs : List (String × String) :=
  (column_keywords.map (fun p => p.2.map (fun kw => (p.1, kw)))).flatten

/-- The pairs sorted by keyword length descending with a stable sort
(source line 163, Python's stable `list.sort(key=len, reverse=True)`). -/
def sorted_items : List (String × String) :=
  List.insertionSort (fun a b => b.2.length ≤ a.2.length) all_keyword_pairs

/-- Does the normalized name trip the non-PII exclusion check
(source lines 151-153)? -/
def isExcluded (n : String) : Bool :=
  non_pii_keywords.any (fun kw =>
    (kw == n) || pyIn ("_" ++ kw) n || pyIn (kw ++ "_") n)

/-- `PIIDetector.detect_column_name_heuristic` (source lines 133-176). -/
def detect_column_name_heuristic (column_name : String) :
    Option String × ℚ :=
  let n := pyStrip (pyLower column_name)
  if isExcluded n then (none, 0)
  else matchLoop n sorted_items

/-- `PIIDetector.calculate_uniqueness` (source lines 178-194): pandas
`nunique()` counts the distinct non-missing values, the denominator is the
full length including missing cells. -/
def calculate_uniqueness (values : List (Option String)) : ℚ :=
  if values.length = 0 then 0
  else ((values.filterMap id).dedup.length : ℚ) / (values.length : ℚ)

/-- `PIIDetector.calculate_risk_score` (source lines 196-209). -/
def calculate_risk_score (pii_type : String) (impact : ℕ) (uniqueness : ℚ) :
    ℚ :=
  min (20 * (impact : ℚ) * uniqueness) 100

/-- `PIIDetector.categorize_risk` (source lines 211-226). -/
def categorize_risk (risk_score : ℚ) : String :=
  if risk_score ≤ 30 then "Low"
  else if risk_score ≤ 70 then "Medium"
  else "High"

/-- The `recommendations` dict of `recommend_action` (source lines 239-258). -/
def recommendations : List (String × String) :=
  [("SSN", "Tokenization or full masking (e.g., ***-**-1234)"),
   ("CREDIT_CARD", "Tokenization or partial masking (e.g., ****-****-****-1234)"),
   ("NATIONAL_ID", "Tokenization or hashing with salt"),
   ("EMAIL", "Hashing or partial masking (e.g., j***@example.com)"),
   ("PHONE", "Masking last 4 digits (e.g., ***-***-1234)"),
   ("ADDRESS", "Generalization to city/region level"),
   ("GPS_COORDINATES", "Reduce precision to neighborhood level"),
   ("DATE_OF_BIRTH", "Generalization to birth year only"),
   ("DOB", "Generalization to birth year only"),
   ("NAME", "Pseudonymization or tokenization"),
   ("ID", "Tokenization or hashing"),
   ("SALARY", "Generalization to salary ranges"),
   ("MEDICAL", "Remove or encrypt; strict access control required"),
   ("IBAN", "Tokenization or partial masking"),
   ("IP_ADDRESS", "Remove last octet (e.g., 192.168.1.***)"),
   ("URL", "Domain extraction only if needed"),
   ("AGE", "Generalization to age ranges (e.g., 20-30)"),
   ("GENDER", "Keep if necessary for analysis; consider aggregation")]

/-- `PIIDetector.recommend_action` (source lines 228-267).  The urgency
prefixes are embedded exactly as the characters stored in the source file. -/
def recommend_action (pii_type : String) (risk_category : String) : String :=
  let base := (List.lookup pii_type recommendations).getD
    "Apply appropriate anonymization technique"
  if risk_category = "High" then "ðŸ”´ URGENT: " ++ base
  else if risk_category = "Medium" then "ðŸŸ¡ " ++ base
  else "ðŸŸ¢ " ++ base

/-- The detection-reconciliation step of `analyze_dataset` (source lines
288-300): pattern result on strictly greater confidence, otherwise the
heuristic result when its confidence is positive, otherwise nothing. -/
def combineDetections (p h : Option String × ℚ) :
    Option String × ℚ × String :=
  if p.2 > h.2 then (p.1, p.2, "Pattern-Based")
  else if h.2 > 0 then (h.1, h.2, "Column Name Heuristic")
  else (none, 0, "None")

/-- One row of the analysis report (source lines 310-323). -/
structure Finding where
  columnName : String
  piiType : String
  detectionMethod : String
  confidence : ℚ
  impact : ℕ
  uniqueness : ℚ
  riskScore : ℚ
  riskCategory : String
  recommendedAction : String
  dataType : String
  uniqueValues : ℕ
  nullCount : ℕ
deriving Repr, DecidableEq

/-- The metrics block of `analyze_dataset` (source lines 302-323): given the
adopted type, confidence and method for a column, compute uniqueness, impact
(default 2), risk score, category and recommendation, and build the row. -/
def mkFinding (c : Column) (t : String) (conf : ℚ) (method : String) :
    Finding :=
  let uniq := calculate_uniqueness c.values
  let impact := (List.lookup t impact_scores).getD 2
  let score := calculate_risk_score t impact uniq
  let cat := categorize_risk score
  { columnName := c.name
    piiType := t
    detectionMethod := method
    confidence := conf
    impact := impact
    uniqueness := uniq
    riskScore := score
    riskCategory := cat
    recommendedAction := recommend_action t cat
    dataType := c.dtype
    uniqueValues := (c.values.filterMap id).dedup.length
    nullCount := (c.values.filter (fun v => v.isNone)).length }

/-- The per-column body of `analyze_dataset` (source lines 281-323):
run both detectors, reconcile, and when a type was adopted compute
uniqueness, impact (default 2), risk score, category and recommendation. -/
def analyzeColumn (matcher : Matcher) (c : Column) : Option Finding :=
  let pr := detect_pattern_based matcher c
  let hr := detect_column_name_heuristic c.name
  let comb := combineDetections pr hr
  match comb.1 with
  | none => none
  | some t => some (mkFinding c t comb.2.1 comb.2.2)

/-- `PIIDetector.analyze_dataset` (source lines 269-325): one finding per
flagged column, in column order; unflagged columns are absent. -/
def analyze_dataset (matcher : Matcher) (cols : List Column) : List Finding :=
  cols.filterMap (analyzeColumn matcher)

/-! ## Specification-side definitions

The following definitions transcribe the *specification's wording* (not the
code) and exist only to be compared against the embedded code above. -/

/-- Spec wording of the Pattern Detector's candidate rule (§4.1 step 3):
"a pattern is only accepted as a candidate if its match ratio exceeds 0.3
AND the length of the first sampled value is ≤ 200 characters". -/
def specPatternCandidates (matcher : Matcher) (vals : List String) :
    List String :=
  pii_pattern_keys.filter (fun t =>
    decide (matchRatio matcher vals t > 3/10) &&
    decide ((vals.headD "").length ≤ 200))

/-- Spec wording of the Pattern Detector's selection (§4.1 steps 2-6):
no detection above mean length 500; else the first priority-order type among
the candidates whose ratio exceeds 0.5; else the highest-ratio candidate if
above 0.5; else no detection with confidence 0. -/
def specPatternDetect (matcher : Matcher) (vals : List String) :
    Option String × ℚ :=
  if avgLength vals > 500 then (none, 0)
  else
    let cands := specPatternCandidates matcher vals
    match priority_order.find? (fun t =>
        decide (t ∈ cands) && decide (matchRatio matcher vals t > 1/2)) with
    | some t => (some t, matchRatio matcher vals t)
    | none =>
      match cands with
      | [] => (none, 0)
      | c :: cs =>
        let best := cs.foldl (fun acc t =>
          if matchRatio matcher vals t > matchRatio matcher vals acc then t
          else acc) c
        if matchRatio matcher vals best > 1/2 then
          (some best, matchRatio matcher vals best)
        else (none, 0)

/-- Spec wording of the Name Heuristic tiers (§4.2 step 4): 0.9 if the
keyword equals the whole normalized name, 0.8 if it appears as a delimited
token, 0.7 if it equals the first or last underscore-delimited segment —
with no substring precondition. -/
def specTier (n kw : String) : Option ℚ :=
  if kw = n then some (9/10)
  else if pyIn ("_" ++ kw) n || pyIn (kw ++ "_") n then some (8/10)
  else if kw = lastSeg n ∨ kw = firstSeg n then some (7/10)
  else none

/-- The uniqueness ratio as the claim words it: distinct-value count over
total count with missing values counted as regular values, so an all-missing
column still contributes one distinct value. -/
def specUniquenessMissingRegular (values : List (Option String)) : ℚ :=
  if values.length = 0 then 0
  else ((values.dedup.length : ℚ)) / (values.length : ℚ)

/-! ## Basic lemmas about the string helpers -/

theorem containsSub_iff {hay needle : List Char} :
    containsSub hay needle = true ↔ needle <:+: hay := by
  induction hay with
  | nil =>
    simp [containsSub, List.isEmpty_iff]
  | cons c t ih =>
    simp [containsSub, List.infix_cons_iff, ih, List.isPrefixOf_iff_prefix]

theorem pyIn_iff {needle hay : String} :
    pyIn needle hay = true ↔ needle.data <:+: hay.data :=
  containsSub_iff

theorem pyIn_self (s : String) : pyIn s s = true :=
  pyIn_iff.mpr (List.infix_refl _)

theorem pyIn_of_pyIn_append_left {x kw hay : String}
    (h : pyIn (x ++ kw) hay = true) : pyIn kw hay = true := by
  refine pyIn_iff.mpr (List.IsInfix.trans ?_ (pyIn_iff.mp h))
  rw [String.data_append]
  exact (List.suffix_append _ _).isInfix

theorem pyIn_of_pyIn_append_right {kw x hay : String}
    (h : pyIn (kw ++ x) hay = true) : pyIn kw hay = true := by
  refine pyIn_iff.mpr (List.IsInfix.trans ?_ (pyIn_iff.mp h))
  rw [String.data_append]
  exact (List.prefix_append _ _).isInfix

theorem splitUnd_ne_nil (l : List Char) : splitUnd l ≠ [] := by
  cases l with
  | nil => simp [splitUnd]
  | cons c rest =>
    simp only [splitUnd]
    cases h : splitUnd rest with
    | nil => simp
    | cons s ss =>
      dsimp only
      split <;> simp

theorem splitUnd_singleton (l : List Char) :
    ∀ s, splitUnd l = [s] → s = l := by
  induction l with
  | nil => intro s h; simpa [splitUnd] using h.symm
  | cons c rest ih =>
    intro s h
    simp only [splitUnd] at h
    cases hr : splitUnd rest with
    | nil => exact absurd hr (splitUnd_ne_nil rest)
    | cons s' ss' =>
      rw [hr] at h
      dsimp only at h
      by_cases hc : c = '_'
      · rw [if_pos hc] at h
        exact absurd h (by simp)
      · rw [if_neg hc] at h
        injection h with h1 h2
        subst h2
        rw [← h1, ih s' hr]

theorem headD_splitUnd_starts (l : List Char) :
    (splitUnd l).headD [] <+: l := by
  induction l with
  | nil => simp [splitUnd]
  | cons c rest ih =>
    simp only [splitUnd]
    cases hr : splitUnd rest with
    | nil => exact absurd hr (splitUnd_ne_nil rest)
    | cons s ss =>
      rw [hr] at ih
      dsimp only at ih ⊢
      split
      · simp
      · exact List.cons_prefix_cons.mpr ⟨rfl, ih⟩

theorem getLastD_splitUnd_suffix (l : List Char) :
    (splitUnd l).getLastD [] <:+ l := by
  induction l with
  | nil => simp [splitUnd]
  | cons c rest ih =>
    simp only [splitUnd]
    cases hr : splitUnd rest with
    | nil => exact absurd hr (splitUnd_ne_nil rest)
    | cons s ss =>
      rw [hr] at ih
      dsimp only at ih ⊢
      split
      · rw [List.getLastD_cons]
        exact ih.trans (List.suffix_cons c rest)
      · cases ss with
        | nil =>
          have hs : s = rest := splitUnd_singleton rest s hr
          simp [List.getLastD, hs]
        | cons s2 ss2 =>
          rw [List.getLastD_cons] at ih ⊢
          rw [List.getLastD_cons] at ih ⊢
          exact ih.trans (List.suffix_cons c rest)

theorem pyIn_firstSeg (n : String) : pyIn (firstSeg n) n = true :=
  pyIn_iff.mpr (headD_splitUnd_starts n.data).isInfix

theorem pyIn_lastSeg (n : String) : pyIn (lastSeg n) n = true :=
  pyIn_iff.mpr (getLastD_splitUnd_suffix n.data).isInfix

/-! ## Generic list lemmas used by the detector proofs -/

theorem findSome_mem {α β : Type} (f : α → Option β) :
    ∀ (l : List α) (b : β), l.findSome? f = some b → ∃ a, a ∈ l ∧ f a = some b := by
  intro l
  induction l with
  | nil => simp [List.findSome?]
  | cons x xs ih =>
    intro b h
    rw [List.findSome?_cons] at h
    cases hf : f x with
    | some v =>
      rw [hf] at h
      exact ⟨x, List.mem_cons_self x xs, by rw [hf]; exact h⟩
    | none =>
      rw [hf] at h
      obtain ⟨a, ha, hfa⟩ := ih b h
      exact ⟨a, List.mem_cons_of_mem x ha, hfa⟩

theorem lookup_mem {β : Type} :
    ∀ (l : List (String × β)) (t : String) (r : β),
      List.lookup t l = some r → (t, r) ∈ l := by
  intro l
  induction l with
  | nil => simp [List.lookup]
  | cons x xs ih =>
    intro t r h
    obtain ⟨k, v⟩ := x
    simp only [List.lookup] at h
    cases hk : t == k with
    | true =>
      rw [hk] at h
      injection h with hv
      have ht : t = k := by simpa [beq_iff_eq] using hk
      subst ht
      subst hv
      exact List.mem_cons_self _ _
    | false =>
      rw [hk] at h
      exact List.mem_cons_of_mem _ (ih t r h)

theorem foldl_max_mem :
    ∀ (xs : List (String × ℚ)) (x : String × ℚ),
      xs.foldl (fun acc y => if y.2 > acc.2 then y else acc) x ∈ x :: xs := by
  intro xs
  induction xs with
  | nil => simp
  | cons y ys ih =>
    intro x
    rw [List.foldl_cons]
    rcases List.mem_cons.mp (ih (if y.2 > x.2 then y else x)) with h1 | h2
    · rw [h1]
      split <;> simp
    · exact List.mem_cons.mpr (Or.inr (List.mem_cons.mpr (Or.inr h2)))

/-! ## Shape lemmas for the two detectors -/

theorem matchRatio_nonneg (matcher : Matcher) (vals : List String)
    (t : String) : 0 ≤ matchRatio matcher vals t := by
  unfold matchRatio
  positivity

theorem matchRatio_le_one (matcher : Matcher) (vals : List String)
    (t : String) : matchRatio matcher vals t ≤ 1 := by
  unfold matchRatio
  rcases Nat.eq_zero_or_pos vals.length with h0 | hpos
  · simp [h0]
  · rw [div_le_one (by exact_mod_cast hpos)]
    exact_mod_cast List.length_filter_le _ _

theorem mem_patternMatchesList {matcher : Matcher} {vals : List String}
    {x : String × ℚ} (h : x ∈ patternMatchesList matcher vals) :
    x.1 ∈ pii_pattern_keys ∧ x.2 = matchRatio matcher vals x.1 ∧
      3/10 < x.2 ∧ x.2 ≤ 1 := by
  obtain ⟨t, ht, he⟩ := List.mem_filterMap.mp h
  by_cases h1 : matchRatio matcher vals t > 3/10
  · rw [if_pos h1] at he
    by_cases h2 : (vals.headD "").length > 200
    · rw [if_pos h2] at he
      exact absurd he (by simp)
    · rw [if_neg h2] at he
      injection he with he
      subst he
      exact ⟨ht, rfl, h1, matchRatio_le_one matcher vals t⟩
  · rw [if_neg h1] at he
    exact absurd he (by simp)

theorem selectBest_shape (pm : List (String × ℚ))
    (hb : ∀ x ∈ pm, x.2 ≤ 1) :
    selectBest pm = (none, 0) ∨
      ∃ t r, selectBest pm = (some t, r) ∧ 1/2 < r ∧ r ≤ 1 := by
  cases pm with
  | nil => exact Or.inl rfl
  | cons x xs =>
    rw [selectBest]
    cases hf : List.findSome? (fun t =>
        match List.lookup t (x :: xs) with
        | some r => if r > 1/2 then some (t, r) else none
        | none => none) priority_order with
    | some tr =>
      right
      obtain ⟨a, _, hfa⟩ := findSome_mem _ priority_order tr hf
      refine ⟨tr.1, tr.2, rfl, ?_, ?_⟩
      · cases hl : List.lookup a (x :: xs) with
        | some r =>
          rw [hl] at hfa
          dsimp only at hfa
          by_cases hr : r > 1/2
          · rw [if_pos hr] at hfa
            injection hfa with hfa
            rw [← hfa]
            exact hr
          · rw [if_neg hr] at hfa
            exact absurd hfa (by simp)
        | none =>
          rw [hl] at hfa
          dsimp only at hfa
          exact absurd hfa (by simp)
      · cases hl : List.lookup a (x :: xs) with
        | some r =>
          rw [hl] at hfa
          dsimp only at hfa
          by_cases hr : r > 1/2
          · rw [if_pos hr] at hfa
            injection hfa with hfa
            rw [← hfa]
            exact hb _ (lookup_mem _ a r hl)
          · rw [if_neg hr] at hfa
            exact absurd hfa (by simp)
        | none =>
          rw [hl] at hfa
          dsimp only at hfa
          exact absurd hfa (by simp)
    | none =>
      by_cases hbest :
          (xs.foldl (fun acc y => if y.2 > acc.2 then y else acc) x).2 > 1/2
      · right
        refine ⟨_, _, if_pos hbest, hbest, hb _ (foldl_max_mem xs x)⟩
      · left
        exact if_neg hbest

theorem detect_pattern_based_shape (matcher : Matcher) (c : Column) :
    detect_pattern_based matcher c = (none, 0) ∨
      ∃ t r, detect_pattern_based matcher c = (some t, r) ∧
        1/2 < r ∧ r ≤ 1 := by
  unfold detect_pattern_based
  split
  · exact Or.inl rfl
  · dsimp only
    split
    · exact Or.inl rfl
    · split
      · exact Or.inl rfl
      · exact selectBest_shape _ (fun x hx => (mem_patternMatchesList hx).2.2.2)

theorem matchLoop_shape (n : String) :
    ∀ l : List (String × String),
      matchLoop n l = (none, 0) ∨
        ∃ t, matchLoop n l = (some t, 9/10) ∨ matchLoop n l = (some t, 8/10) ∨
          matchLoop n l = (some t, 7/10) := by
  intro l
  induction l with
  | nil => exact Or.inl rfl
  | cons p rest ih =>
    obtain ⟨t, kw⟩ := p
    rw [matchLoop]
    split
    · split
      · exact Or.inr ⟨t, Or.inl rfl⟩
      · split
        · exact Or.inr ⟨t, Or.inr (Or.inl rfl)⟩
        · split
          · exact Or.inr ⟨t, Or.inr (Or.inr rfl)⟩
          · exact ih
    · exact ih

theorem detect_column_name_heuristic_shape (name : String) :
    detect_column_name_heuristic name = (none, 0) ∨
      ∃ t, detect_column_name_heuristic name = (some t, 9/10) ∨
        detect_column_name_heuristic name = (some t, 8/10) ∨
        detect_column_name_heuristic name = (some t, 7/10) := by
  unfold detect_column_name_heuristic
  dsimp only
  split
  · exact Or.inl rfl
  · exact matchLoop_shape _ sorted_items

theorem detect_column_name_heuristic_nonneg (name : String) :
    0 ≤ (detect_column_name_heuristic name).2 := by
  rcases detect_column_name_heuristic_shape name with h | ⟨t, h | h | h⟩ <;>
    rw [h] <;> norm_num

theorem detect_column_name_heuristic_isSome (name : String)
    (h : (detect_column_name_heuristic name).2 > 0) :
    ∃ t conf, detect_column_name_heuristic name = (some t, conf) ∧
      (conf = 7/10 ∨ conf = 8/10 ∨ conf = 9/10) := by
  rcases detect_column_name_heuristic_shape name with h0 | ⟨t, h9 | h8 | h7⟩
  · rw [h0] at h
    norm_num at h
  · exact ⟨t, _, h9, Or.inr (Or.inr rfl)⟩
  · exact ⟨t, _, h8, Or.inr (Or.inl rfl)⟩
  · exact ⟨t, _, h7, Or.inl rfl⟩

/-! ## Equivalence of the Pattern Detector with its specification wording -/

theorem filterMap_guard_eq {α β : Type} (p : α → Bool) (g : α → β) :
    ∀ l : List α,
      l.filterMap (fun a => if p a then some (g a) else none) =
        (l.filter p).map g := by
  intro l
  induction l with
  | nil => rfl
  | cons a l ih =>
    rw [List.filterMap_cons, List.filter_cons]
    cases hp : p a <;> simp [hp, ih]

theorem patternMatchesList_eq (matcher : Matcher) (vals : List String) :
    patternMatchesList matcher vals =
      (specPatternCandidates matcher vals).map
        (fun t => (t, matchRatio matcher vals t)) := by
  unfold patternMatchesList specPatternCandidates
  by_cases h2 : (vals.headD "").length ≤ 200
  · have h2' : ¬ (vals.headD "").length > 200 := by omega
    have e1 : (fun t => if matchRatio matcher vals t > 3/10 then
          (if (vals.headD "").length > 200 then none
           else some (t, matchRatio matcher vals t))
        else none) =
        (fun t => if (decide (matchRatio matcher vals t > 3/10) &&
            decide ((vals.headD "").length ≤ 200)) then
          some (t, matchRatio matcher vals t)
        else none) := by
      funext t
      by_cases hr : matchRatio matcher vals t > 3/10
      · rw [if_pos hr, if_neg h2', decide_eq_true hr, decide_eq_true h2]
        rfl
      · rw [if_neg hr, decide_eq_false hr]
        rfl
    rw [e1]
    exact filterMap_guard_eq _ _ _
  · have h2' : (vals.headD "").length > 200 := by omega
    have e1 : (fun t => if matchRatio matcher vals t > 3/10 then
          (if (vals.headD "").length > 200 then none
           else some (t, matchRatio matcher vals t))
        else none) = (fun t : String => (none : Option (String × ℚ))) := by
      funext t
      by_cases hr : matchRatio matcher vals t > 3/10
      · rw [if_pos hr, if_pos h2']
      · rw [if_neg hr]
    have e2 : (fun t => decide (matchRatio matcher vals t > 3/10) &&
        decide ((vals.headD "").length ≤ 200)) = (fun t : String => false) := by
      funext t
      rw [decide_eq_false h2]
      exact Bool.and_false _
    rw [e1, e2]
    rfl

theorem lookup_map_ratio (g : String → ℚ) :
    ∀ (l : List String) (t : String),
      List.lookup t (l.map (fun a => (a, g a))) =
        if t ∈ l then some (g t) else none := by
  intro l
  induction l with
  | nil => simp
  | cons a l ih =>
    intro t
    rw [List.map_cons]
    simp only [List.lookup]
    cases hk : t == a with
    | true =>
      have ht : t = a := by simpa [beq_iff_eq] using hk
      subst ht
      simp
    | false =>
      have hne : t ≠ a := by simpa using hk
      rw [ih t]
      simp [List.mem_cons, hne]

theorem findSome_lookup_eq (cands : List String) (g : String → ℚ) :
    ∀ l : List String,
      l.findSome? (fun t =>
        match List.lookup t (cands.map (fun a => (a, g a))) with
        | some r => if r > 1/2 then some (t, r) else none
        | none => none) =
      (l.find? (fun t => decide (t ∈ cands) && decide (g t > 1/2))).map
        (fun t => (t, g t)) := by
  intro l
  induction l with
  | nil => rfl
  | cons a l ih =>
    rw [List.findSome?_cons, List.find?_cons]
    rw [lookup_map_ratio]
    by_cases hm : a ∈ cands
    · rw [if_pos hm]
      dsimp only
      by_cases hr : g a > 1/2
      · rw [if_pos hr, decide_eq_true hm, decide_eq_true hr]
        rfl
      · rw [if_neg hr, decide_eq_true hm, decide_eq_false hr]
        dsimp only
        exact ih
    · rw [if_neg hm, decide_eq_false hm]
      dsimp only
      exact ih

theorem foldl_max_map (g : String → ℚ) :
    ∀ (cs : List String) (a : String),
      (cs.map (fun t => (t, g t))).foldl
          (fun acc y => if y.2 > acc.2 then y else acc) (a, g a) =
        (cs.foldl (fun acc t => if g t > g acc then t else acc) a,
         g (cs.foldl (fun acc t => if g t > g acc then t else acc) a)) := by
  intro cs
  induction cs with
  | nil => intro a; rfl
  | cons t cs ih =>
    intro a
    rw [List.map_cons, List.foldl_cons, List.foldl_cons]
    dsimp only
    by_cases h : g t > g a
    · rw [if_pos h, if_pos h, ih]
    · rw [if_neg h, if_neg h, ih]

theorem findSome_lookup_eq_cons (c : String) (cs : List String)
    (g : String → ℚ) :
    ∀ l : List String,
      l.findSome? (fun t =>
        match List.lookup t ((c, g c) :: cs.map (fun a => (a, g a))) with
        | some r => if r > 1/2 then some (t, r) else none
        | none => none) =
      (l.find? (fun t => decide (t ∈ c :: cs) && decide (g t > 1/2))).map
        (fun t => (t, g t)) := by
  intro l
  have he : (fun t =>
      match List.lookup t ((c, g c) :: cs.map (fun a => (a, g a))) with
      | some r => if r > 1/2 then some (t, r) else none
      | none => none) =
      (fun t =>
      match List.lookup t ((c :: cs).map (fun a => (a, g a))) with
      | some r => if r > 1/2 then some (t, r) else none
      | none => none) := by
    funext t
    rw [List.map_cons]
  rw [he, findSome_lookup_eq (c :: cs) g l]

theorem find?_nil_cands (g : String → ℚ) :
    priority_order.find? (fun t =>
      decide (t ∈ ([] : List String)) && decide (g t > 1/2)) = none := by
  apply List.find?_eq_none.mpr
  intro x hx
  simp

theorem selectBest_map (g : String → ℚ) (cands : List String) :
    selectBest (cands.map (fun t => (t, g t))) =
      (match priority_order.find? (fun t =>
          decide (t ∈ cands) && decide (g t > 1/2)) with
      | some t => (some t, g t)
      | none =>
        match cands with
        | [] => (none, 0)
        | c :: cs =>
          let best := cs.foldl (fun acc t => if g t > g acc then t else acc) c
          if g best > 1/2 then (some best, g best) else (none, 0)) := by
  cases cands with
  | nil =>
    rw [find?_nil_cands g]
    rfl
  | cons c cs =>
    have hm : List.map (fun t => (t, g t)) (c :: cs) =
        (c, g c) :: List.map (fun t => (t, g t)) cs := by
      rw [List.map_cons]
    rw [hm, selectBest, findSome_lookup_eq_cons c cs g]
    cases hf : priority_order.find? (fun t =>
        decide (t ∈ c :: cs) && decide (g t > 1/2)) with
    | some t => rfl
    | none =>
      simp only [Option.map_none']
      rw [foldl_max_map g cs c]

/-! ## Equivalence of the Name Heuristic with its specification wording -/

theorem specTier_eq_nine {n kw : String} (h : kw = n) :
    specTier n kw = some (9/10) := by
  unfold specTier
  rw [if_pos h]

theorem specTier_eq_eight {n kw : String} (h1 : kw ≠ n)
    (h2 : (pyIn ("_" ++ kw) n || pyIn (kw ++ "_") n) = true) :
    specTier n kw = some (8/10) := by
  unfold specTier
  rw [if_neg h1, if_pos h2]

theorem specTier_eq_seven {n kw : String} (h1 : kw ≠ n)
    (h2 : ¬ (pyIn ("_" ++ kw) n || pyIn (kw ++ "_") n) = true)
    (h3 : kw = lastSeg n ∨ kw = firstSeg n) :
    specTier n kw = some (7/10) := by
  unfold specTier
  rw [if_neg h1, if_neg h2, if_pos h3]

theorem specTier_eq_none_tiers {n kw : String} (h1 : kw ≠ n)
    (h2 : ¬ (pyIn ("_" ++ kw) n || pyIn (kw ++ "_") n) = true)
    (h3 : ¬ (kw = lastSeg n ∨ kw = firstSeg n)) :
    specTier n kw = none := by
  unfold specTier
  rw [if_neg h1, if_neg h2, if_neg h3]

/-- The source's substring precondition (`if keyword in column_name_lower`)
is implied by each of the three tier conditions, so a keyword skipped by the
precondition satisfies no tier. -/
theorem specTier_none_of_not_pyIn {n kw : String} (h : pyIn kw n = false) :
    specTier n kw = none := by
  have h1 : kw ≠ n := by
    intro he
    rw [he, pyIn_self n] at h
    cases h
  have h2 : ¬ (pyIn ("_" ++ kw) n || pyIn (kw ++ "_") n) = true := by
    intro hor
    rcases Bool.or_eq_true_iff.mp hor with h' | h'
    · rw [pyIn_of_pyIn_append_left h'] at h
      cases h
    · rw [pyIn_of_pyIn_append_right h'] at h
      cases h
  have h3 : ¬ (kw = lastSeg n ∨ kw = firstSeg n) := by
    rintro (he | he)
    · rw [he, pyIn_lastSeg n] at h
      cases h
    · rw [he, pyIn_firstSeg n] at h
      cases h
  exact specTier_eq_none_tiers h1 h2 h3

theorem matchLoop_eq_spec (n : String) :
    ∀ l : List (String × String),
      matchLoop n l =
        (l.findSome? (fun p =>
          (specTier n p.2).map
            (fun conf => ((some p.1 : Option String), conf)))).getD (none, 0) := by
  intro l
  induction l with
  | nil => rfl
  | cons p rest ih =>
    obtain ⟨t, kw⟩ := p
    rw [matchLoop, List.findSome?_cons]
    by_cases h0 : pyIn kw n
    · rw [if_pos h0]
      by_cases h1 : kw = n
      · rw [if_pos h1]
        dsimp only
        rw [specTier_eq_nine h1]
        rfl
      · by_cases h2 : (pyIn ("_" ++ kw) n || pyIn (kw ++ "_") n) = true
        · rw [if_neg h1, if_pos h2]
          dsimp only
          rw [specTier_eq_eight h1 h2]
          rfl
        · by_cases h3 : kw = lastSeg n ∨ kw = firstSeg n
          · rw [if_neg h1, if_neg h2, if_pos h3]
            dsimp only
            rw [specTier_eq_seven h1 h2 h3]
            rfl
          · rw [if_neg h1, if_neg h2, if_neg h3]
            dsimp only
            rw [specTier_eq_none_tiers h1 h2 h3]
            exact ih
    · rw [if_neg h0]
      dsimp only
      rw [specTier_none_of_not_pyIn (Bool.eq_false_iff.mpr h0)]
      exact ih

/-! ## Case lemmas for the reconciliation step of the analyzer -/

theorem analyzeColumn_pattern_case {matcher : Matcher} {c : Column}
    {t : String} {r : ℚ}
    (hp : detect_pattern_based matcher c = (some t, r))
    (hgt : r > (detect_column_name_heuristic c.name).2) :
    analyzeColumn matcher c = some (mkFinding c t r "Pattern-Based") := by
  unfold analyzeColumn combineDetections
  rw [hp]
  dsimp only
  rw [if_pos hgt]

theorem analyzeColumn_heuristic_case {matcher : Matcher} {c : Column}
    {t : String} {r : ℚ}
    (hh : detect_column_name_heuristic c.name = (some t, r))
    (hle : ¬ (detect_pattern_based matcher c).2 > r)
    (hpos : r > 0) :
    analyzeColumn matcher c =
      some (mkFinding c t r "Column Name Heuristic") := by
  unfold analyzeColumn combineDetections
  rw [hh]
  dsimp only
  rw [if_neg hle, if_pos hpos]

theorem analyzeColumn_none_case {matcher : Matcher} {c : Column}
    (hle : ¬ (detect_pattern_based matcher c).2 >
      (detect_column_name_heuristic c.name).2)
    (hnp : ¬ (detect_column_name_heuristic c.name).2 > 0) :
    analyzeColumn matcher c = none := by
  unfold analyzeColumn combineDetections
  dsimp only
  rw [if_neg hle, if_neg hnp]

/-- The embedded `detect_pattern_based` agrees with the specification-worded
selection on every textual column with at least one non-missing value. -/
theorem detect_pattern_based_eq_spec (matcher : Matcher) (c : Column)
    (hdt : c.dtype = "object" ∨ c.dtype = "string")
    (hne : stringData c ≠ []) :
    detect_pattern_based matcher c = specPatternDetect matcher (stringData c) := by
  unfold detect_pattern_based specPatternDetect
  rw [if_neg (not_not_intro hdt)]
  dsimp only
  rw [if_neg (by simpa using hne)]
  by_cases havg : avgLength (stringData c) > 500
  · rw [if_pos havg, if_pos havg]
  · rw [if_neg havg, if_neg havg]
    rw [patternMatchesList_eq, selectBest_map]

/-! ## Claim theorems -/

/-- C1: for every column of the dataset, the analyzer reconciles the two
detector outputs as follows: if pattern confidence strictly exceeds
heuristic confidence, the pattern result is adopted with method
Pattern-Based; otherwise, if heuristic confidence is greater than 0, the
heuristic result is adopted with method Column-Name Heuristic (the source
spells the method string "Column Name Heuristic"); otherwise the column is
unflagged and excluded from the output sequence — the output collects
exactly the columns whose reconciliation adopted a type. -/
theorem c1_reconciliation (matcher : Matcher) (cols : List Column)
    (c : Column) (hc : c ∈ cols) :
    ((detect_pattern_based matcher c).2 >
        (detect_column_name_heuristic c.name).2 →
      ∃ t, (detect_pattern_based matcher c).1 = some t ∧
        ∃ f, analyzeColumn matcher c = some f ∧ f.piiType = t ∧
          f.confidence = (detect_pattern_based matcher c).2 ∧
          f.detectionMethod = "Pattern-Based" ∧
          f ∈ analyze_dataset matcher cols) ∧
    (¬ (detect_pattern_based matcher c).2 >
        (detect_column_name_heuristic c.name).2 →
      (detect_column_name_heuristic c.name).2 > 0 →
      ∃ t, (detect_column_name_heuristic c.name).1 = some t ∧
        ∃ f, analyzeColumn matcher c = some f ∧ f.piiType = t ∧
          f.confidence = (detect_column_name_heuristic c.name).2 ∧
          f.detectionMethod = "Column Name Heuristic" ∧
          f ∈ analyze_dataset matcher cols) ∧
    (¬ (detect_pattern_based matcher c).2 >
        (detect_column_name_heuristic c.name).2 →
      ¬ (detect_column_name_heuristic c.name).2 > 0 →
      analyzeColumn matcher c = none) ∧
    (∀ f, f ∈ analyze_dataset matcher cols ↔
      ∃ c', c' ∈ cols ∧ analyzeColumn matcher c' = some f) := by
  refine ⟨?_, ?_, ?_, ?_⟩
  · intro hgt
    have hnn := detect_column_name_heuristic_nonneg c.name
    rcases detect_pattern_based_shape matcher c with h0 | ⟨t, r, heq, hr2, hr1⟩
    · rw [h0] at hgt
      exact absurd hgt (not_lt.mpr hnn)
    · have hgt' : r > (detect_column_name_heuristic c.name).2 := by
        rw [heq] at hgt
        exact hgt
      refine ⟨t, by rw [heq], mkFinding c t r "Pattern-Based",
        analyzeColumn_pattern_case heq hgt', rfl, by rw [heq]; rfl, rfl, ?_⟩
      unfold analyze_dataset
      exact List.mem_filterMap.mpr
        ⟨c, hc, analyzeColumn_pattern_case heq hgt'⟩
  · intro hle hpos
    obtain ⟨t, conf, heq, _⟩ :=
      detect_column_name_heuristic_isSome c.name hpos
    have hle' : ¬ (detect_pattern_based matcher c).2 > conf := by
      rw [heq] at hle
      exact hle
    have hpos' : conf > 0 := by
      rw [heq] at hpos
      exact hpos
    refine ⟨t, by rw [heq], mkFinding c t conf "Column Name Heuristic",
      analyzeColumn_heuristic_case heq hle' hpos', rfl, by rw [heq]; rfl, rfl,
      ?_⟩
    unfold analyze_dataset
    exact List.mem_filterMap.mpr
      ⟨c, hc, analyzeColumn_heuristic_case heq hle' hpos'⟩
  · intro hle hnp
    exact analyzeColumn_none_case hle hnp
  · intro f
    unfold analyze_dataset
    exact List.mem_filterMap

/-- Witness for C1: with a matcher that never fires, the column named
"full_name" falls into the heuristic branch and its finding appears in the
analyzer output. -/
theorem c1_reconciliation_witness :
    ∃ t, (detect_column_name_heuristic "full_name").1 = some t ∧
      ∃ f, analyzeColumn (fun _ _ => false)
          ⟨"full_name", "object", [some "Alice Smith"]⟩ = some f ∧
        f.piiType = t ∧
        f.confidence = (detect_column_name_heuristic "full_name").2 ∧
        f.detectionMethod = "Column Name Heuristic" ∧
        f ∈ analyze_dataset (fun _ _ => false)
          [⟨"full_name", "object", [some "Alice Smith"]⟩] := by
  have h := (c1_reconciliation (fun _ _ => false)
      [⟨"full_name", "object", [some "Alice Smith"]⟩]
      ⟨"full_name", "object", [some "Alice Smith"]⟩
      (List.mem_singleton.mpr rfl)).2.1
      (by with_unfolding_all decide) (by with_unfolding_all decide)
  exact h

/-- C2 counterexample: the claim says that at equal confidences 0.6/0.6 the
heuristic result is dropped; in the source the tie falls through to the
`elif heuristic_conf > 0` branch, so the heuristic result is adopted. -/
theorem c2_tie_counterexample :
    combineDetections (some "EMAIL", 3/5) (some "NAME", 3/5) =
      (some "NAME", 3/5, "Column Name Heuristic") := by
  with_unfolding_all rfl

/-- C2 amended: at equal confidences 0.6 the PATTERN result is dropped and
the heuristic result is adopted; the adopted method is "None" exactly when
both (non-negative) confidences are 0, and Pattern-Based exactly on strict
inequality favouring pattern. -/
theorem c2_tie_amended (p h : Option String × ℚ)
    (hp : 0 ≤ p.2) (hh : 0 ≤ h.2) :
    (p.2 = 3/5 → h.2 = 3/5 →
      combineDetections p h = (h.1, h.2, "Column Name Heuristic")) ∧
    ((combineDetections p h).2.2 = "None" ↔ p.2 = 0 ∧ h.2 = 0) ∧
    ((combineDetections p h).2.2 = "Pattern-Based" ↔ p.2 > h.2) := by
  unfold combineDetections
  refine ⟨?_, ?_, ?_⟩
  · intro hp6 hh6
    rw [if_neg (by rw [hp6, hh6]; exact lt_irrefl _),
      if_pos (by rw [hh6]; norm_num)]
  · by_cases h1 : p.2 > h.2
    · rw [if_pos h1]
      dsimp only
      constructor
      · intro hstr
        exact absurd hstr (by decide)
      · rintro ⟨hp0, hh0⟩
        rw [hp0, hh0] at h1
        exact absurd h1 (lt_irrefl 0)
    · by_cases h2 : h.2 > 0
      · rw [if_neg h1, if_pos h2]
        dsimp only
        constructor
        · intro hstr
          exact absurd hstr (by decide)
        · rintro ⟨_, hh0⟩
          rw [hh0] at h2
          exact absurd h2 (lt_irrefl 0)
      · rw [if_neg h1, if_neg h2]
        have hh0 : h.2 = 0 := le_antisymm (not_lt.mp h2) hh
        have hp0 : p.2 = 0 := by
          have := not_lt.mp h1
          rw [hh0] at this
          exact le_antisymm this hp
        exact iff_of_true rfl ⟨hp0, hh0⟩
  · by_cases h1 : p.2 > h.2
    · rw [if_pos h1]
      exact iff_of_true rfl h1
    · by_cases h2 : h.2 > 0
      · rw [if_neg h1, if_pos h2]
        dsimp only
        exact iff_of_false (by decide) h1
      · rw [if_neg h1, if_neg h2]
        dsimp only
        exact iff_of_false (by decide) h1

/-- Witness for C2 amended: at the concrete 0.6/0.6 tie the heuristic
result is adopted. -/
theorem c2_tie_amended_witness :
    combineDetections (some "EMAIL", 3/5) (some "NAME", 3/5) =
      ((some "NAME" : Option String), (3/5 : ℚ), "Column Name Heuristic") :=
  (c2_tie_amended (some "EMAIL", 3/5) (some "NAME", 3/5)
    (by norm_num) (by norm_num)).1 rfl rfl

/-- C4: the risk score is min(20 × impact × uniqueness, 100), is 0 when
uniqueness is 0, and the category boundaries are closed below: 30 is Low,
70 is Medium, and any score above 70 (e.g. 70.01) is High. -/
theorem c4_risk_score_and_categories (t : String) (impact : ℕ) (u : ℚ)
    (h1 : 1 ≤ impact) (h5 : impact ≤ 5) (h0 : 0 ≤ u) (hu1 : u ≤ 1) :
    calculate_risk_score t impact u = min (20 * (impact : ℚ) * u) 100 ∧
    (u = 0 → calculate_risk_score t impact u = 0) ∧
    categorize_risk 30 = "Low" ∧
    categorize_risk 70 = "Medium" ∧
    categorize_risk (7001/100) = "High" ∧
    (∀ s : ℚ, s > 70 → categorize_risk s = "High") := by
  refine ⟨rfl, ?_, ?_, ?_, ?_, ?_⟩
  · intro hu0
    subst hu0
    unfold calculate_risk_score
    rw [mul_zero]
    exact min_eq_left (by norm_num)
  · unfold categorize_risk
    rw [if_pos (by norm_num)]
  · unfold categorize_risk
    rw [if_neg (by norm_num), if_pos (by norm_num)]
  · unfold categorize_risk
    rw [if_neg (by norm_num), if_neg (by norm_num)]
  · intro s hs
    unfold categorize_risk
    rw [if_neg (by linarith), if_neg (by linarith)]

/-- Witness for C4 at impact 5 and uniqueness 1/2. -/
theorem c4_risk_score_and_categories_witness :
    calculate_risk_score "SSN" 5 (1/2) = min (20 * ((5 : ℕ) : ℚ) * (1/2)) 100 ∧
    ((1/2 : ℚ) = 0 → calculate_risk_score "SSN" 5 (1/2) = 0) ∧
    categorize_risk 30 = "Low" ∧
    categorize_risk 70 = "Medium" ∧
    categorize_risk (7001/100) = "High" ∧
    (∀ s : ℚ, s > 70 → categorize_risk s = "High") :=
  c4_risk_score_and_categories "SSN" 5 (1/2)
    (by norm_num) (by norm_num) (by norm_num) (by norm_num)

/-- C7 counterexample: the claim counts missing values as regular values of
the ratio, but the source's `nunique()` excludes missing values from the
distinct count: on a single all-missing cell the code returns 0 while the
claimed ratio is 1. -/
theorem c7_uniqueness_counterexample :
    calculate_uniqueness [none] = 0 ∧
    specUniquenessMissingRegular [none] = 1 ∧
    calculate_uniqueness [none] ≠ specUniquenessMissingRegular [none] := by
  have h1 : calculate_uniqueness [none] = 0 := by
    with_unfolding_all rfl
  have h2 : specUniquenessMissingRegular [none] = 1 := by
    with_unfolding_all rfl
  refine ⟨h1, h2, ?_⟩
  intro h
  rw [h1, h2] at h
  norm_num at h

/-- C7 amended: the Uniqueness Calculator returns the distinct-value count
of the NON-MISSING values divided by the total value count (missing values
are counted in the total but not among the distinct values), a rational in
[0,1], and 0 for an empty column. -/
theorem c7_uniqueness_amended (values : List (Option String)) :
    0 ≤ calculate_uniqueness values ∧
    calculate_uniqueness values ≤ 1 ∧
    (values = [] → calculate_uniqueness values = 0) ∧
    (values ≠ [] →
      calculate_uniqueness values =
        ((values.filterMap id).toFinset.card : ℚ) / (values.length : ℚ)) := by
  refine ⟨?_, ?_, ?_, ?_⟩
  · unfold calculate_uniqueness
    split
    · norm_num
    · positivity
  · unfold calculate_uniqueness
    split
    · norm_num
    · rename_i hlen
      have hpos : 0 < values.length := Nat.pos_of_ne_zero hlen
      rw [div_le_one (by exact_mod_cast hpos)]
      have hd : (values.filterMap id).dedup.length ≤
          (values.filterMap id).length := (List.dedup_sublist _).length_le
      have hfm : (values.filterMap id).length ≤ values.length :=
        List.length_filterMap_le _ _
      exact_mod_cast le_trans hd hfm
  · intro h
    subst h
    rfl
  · intro hne
    unfold calculate_uniqueness
    rw [if_neg (by simpa using hne), List.card_toFinset]

/-- Witness for C7 amended on a two-cell column with one missing value. -/
theorem c7_uniqueness_amended_witness :
    calculate_uniqueness [some "a", none] =
      ((([some "a", none] : List (Option String)).filterMap id).toFinset.card :
        ℚ) / (([some "a", none] : List (Option String)).length : ℚ) :=
  (c7_uniqueness_amended [some "a", none]).2.2.2 (by decide)

/-- C8: a column name equal to an entry of the non-PII exclusion list, or
containing one as a delimited token, yields no detection — the exclusion
check precedes all keyword matching. -/
theorem c8_exclusion_precedence (name : String)
    (hex : ∃ kw, kw ∈ non_pii_keywords ∧
      (kw = pyStrip (pyLower name) ∨
       pyIn ("_" ++ kw) (pyStrip (pyLower name)) = true ∨
       pyIn (kw ++ "_") (pyStrip (pyLower name)) = true)) :
    detect_column_name_heuristic name = (none, 0) := by
  have hexc : isExcluded (pyStrip (pyLower name)) = true := by
    obtain ⟨kw, hmem, hcase⟩ := hex
    unfold isExcluded
    apply List.any_eq_true.mpr
    refine ⟨kw, hmem, ?_⟩
    rcases hcase with h | h | h
    · simp [h]
    · simp [h]
    · simp [h]
  unfold detect_column_name_heuristic
  dsimp only
  rw [if_pos hexc]

/-- Witness for C8: the detector returns nothing for the names
"description" (exact exclusion hit) and "status_notes" (token hit). -/
theorem c8_exclusion_precedence_witness :
    detect_column_name_heuristic "description" = (none, 0) ∧
    detect_column_name_heuristic "status_notes" = (none, 0) :=
  ⟨c8_exclusion_precedence "description"
      ⟨"description", by decide, Or.inl (by rfl)⟩,
   c8_exclusion_precedence "status_notes"
      ⟨"status", by decide, Or.inr (Or.inr (by rfl))⟩⟩

/-- C9: a PII type absent from the Impact Table gets impact 2, a type
absent from the Recommendation Table gets the generic message with the
category urgency prefix, and every finding's impact and recommendation are
produced exactly by these total lookups, so no type can make the analysis
fail. -/
theorem c9_unmapped_type_defaults (t cat : String)
    (hti : List.lookup t impact_scores = none)
    (htr : List.lookup t recommendations = none) :
    (List.lookup t impact_scores).getD 2 = 2 ∧
    recommend_action t cat =
      (if cat = "High" then
        "ðŸ”´ URGENT: Apply appropriate anonymization technique"
      else if cat = "Medium" then
        "ðŸŸ¡ Apply appropriate anonymization technique"
      else "ðŸŸ¢ Apply appropriate anonymization technique") ∧
    (∀ (matcher : Matcher) (c : Column) (f : Finding),
      analyzeColumn matcher c = some f →
      f.impact = (List.lookup f.piiType impact_scores).getD 2 ∧
      f.recommendedAction = recommend_action f.piiType f.riskCategory) := by
  refine ⟨by rw [hti]; rfl, ?_, ?_⟩
  · unfold recommend_action
    rw [htr]
    by_cases hc : cat = "High"
    · rw [if_pos hc, if_pos hc]
      rfl
    · rw [if_neg hc, if_neg hc]
      by_cases hm : cat = "Medium"
      · rw [if_pos hm, if_pos hm]
        rfl
      · rw [if_neg hm, if_neg hm]
        rfl
  · intro matcher c f hf
    unfold analyzeColumn at hf
    dsimp only at hf
    cases hcomb : (combineDetections (detect_pattern_based matcher c)
        (detect_column_name_heuristic c.name)).1 with
    | none =>
      rw [hcomb] at hf
      cases hf
    | some t' =>
      rw [hcomb] at hf
      injection hf with hf
      subst hf
      exact ⟨rfl, rfl⟩

/-- Witness for C9 at the unmapped type "FOO" and category "High". -/
theorem c9_unmapped_type_defaults_witness :
    (List.lookup "FOO" impact_scores).getD 2 = 2 ∧
    recommend_action "FOO" "High" =
      "ðŸ”´ URGENT: Apply appropriate anonymization technique" := by
  have h := c9_unmapped_type_defaults "FOO" "High" (by rfl) (by rfl)
  refine ⟨h.1, ?_⟩
  have h2 := h.2.1
  rw [if_pos rfl] at h2
  exact h2

/-- C10: every finding the analyzer emits carries a confidence in (1/2, 1];
its method is Pattern-Based or Column Name Heuristic, and a heuristic
finding's confidence is one of 0.7, 0.8, 0.9 — no finding is emitted with
confidence 0.5 or below. -/
theorem c10_confidence_invariant (matcher : Matcher) (cols : List Column)
    (f : Finding) (hf : f ∈ analyze_dataset matcher cols) :
    (1/2 < f.confidence ∧ f.confidence ≤ 1) ∧
    (f.detectionMethod = "Pattern-Based" ∨
      f.detectionMethod = "Column Name Heuristic") ∧
    (f.detectionMethod = "Column Name Heuristic" →
      f.confidence = 7/10 ∨ f.confidence = 8/10 ∨ f.confidence = 9/10) := by
  unfold analyze_dataset at hf
  obtain ⟨c, hc, hcf⟩ := List.mem_filterMap.mp hf
  by_cases hgt : (detect_pattern_based matcher c).2 >
      (detect_column_name_heuristic c.name).2
  · have hnn := detect_column_name_heuristic_nonneg c.name
    rcases detect_pattern_based_shape matcher c with h0 | ⟨t, r, heq, hr2, hr1⟩
    · rw [h0] at hgt
      exact absurd hgt (not_lt.mpr hnn)
    · have hgt' : r > (detect_column_name_heuristic c.name).2 := by
        rw [heq] at hgt
        exact hgt
      rw [analyzeColumn_pattern_case heq hgt'] at hcf
      injection hcf with hcf
      subst hcf
      refine ⟨⟨hr2, hr1⟩, Or.inl rfl, ?_⟩
      intro hmeth
      have hmeth' : "Pattern-Based" = "Column Name Heuristic" := hmeth
      exact absurd hmeth' (by decide)
  · by_cases hpos : (detect_column_name_heuristic c.name).2 > 0
    · obtain ⟨t, conf, heq, hconf⟩ :=
        detect_column_name_heuristic_isSome c.name hpos
      have hle' : ¬ (detect_pattern_based matcher c).2 > conf := by
        rw [heq] at hgt
        exact hgt
      have hpos' : conf > 0 := by
        rw [heq] at hpos
        exact hpos
      rw [analyzeColumn_heuristic_case heq hle' hpos'] at hcf
      injection hcf with hcf
      subst hcf
      have hbounds : 1/2 < conf ∧ conf ≤ 1 := by
        rcases hconf with h | h | h <;> rw [h] <;> norm_num
      exact ⟨hbounds, Or.inr rfl, fun _ => hconf⟩
    · rw [analyzeColumn_none_case hgt hpos] at hcf
      cases hcf

/-- Witness for C10 on a one-column dataset flagged by the heuristic. -/
theorem c10_confidence_invariant_witness :
    (1/2 < (mkFinding ⟨"full_name", "object", [some "Bob"]⟩ "NAME" (9/10)
        "Column Name Heuristic").confidence ∧
      (mkFinding ⟨"full_name", "object", [some "Bob"]⟩ "NAME" (9/10)
        "Column Name Heuristic").confidence ≤ 1) ∧
    ((mkFinding ⟨"full_name", "object", [some "Bob"]⟩ "NAME" (9/10)
        "Column Name Heuristic").detectionMethod = "Pattern-Based" ∨
      (mkFinding ⟨"full_name", "object", [some "Bob"]⟩ "NAME" (9/10)
        "Column Name Heuristic").detectionMethod = "Column Name Heuristic") ∧
    ((mkFinding ⟨"full_name", "object", [some "Bob"]⟩ "NAME" (9/10)
        "Column Name Heuristic").detectionMethod = "Column Name Heuristic" →
      (mkFinding ⟨"full_name", "object", [some "Bob"]⟩ "NAME" (9/10)
          "Column Name Heuristic").confidence = 7/10 ∨
      (mkFinding ⟨"full_name", "object", [some "Bob"]⟩ "NAME" (9/10)
          "Column Name Heuristic").confidence = 8/10 ∨
      (mkFinding ⟨"full_name", "object", [some "Bob"]⟩ "NAME" (9/10)
          "Column Name Heuristic").confidence = 9/10) :=
  c10_confidence_invariant (fun _ _ => false)
    [⟨"full_name", "object", [some "Bob"]⟩]
    (mkFinding ⟨"full_name", "object", [some "Bob"]⟩ "NAME" (9/10)
      "Column Name Heuristic")
    (by with_unfolding_all decide)

/-- C6 counterexample: the claim says the heuristic matches the "name"
keyword as a delimited token with confidence 0.8 for the column
"full_name"; in the source the longer keyword "full_name" is tested first
and matches the whole name exactly, giving confidence 0.9. -/
theorem c6_full_name_counterexample :
    detect_column_name_heuristic "full_name" = (some "NAME", 9/10) ∧
    detect_column_name_heuristic "full_name" ≠ (some "NAME", 8/10) := by
  have h : detect_column_name_heuristic "full_name" = (some "NAME", 9/10) := by
    with_unfolding_all rfl
  refine ⟨h, ?_⟩
  rw [h]
  intro he
  rw [Prod.mk.injEq] at he
  exact absurd he.2 (by norm_num)

/-- C6 amended: for a column named "full_name" whose values produce no
pattern match, the heuristic matches the keyword "full_name" exactly with
confidence 0.9, and the analyzer flags the column as NAME via the
Column-Name Heuristic method with impact 3. -/
theorem c6_full_name_amended (matcher : Matcher) (c : Column)
    (hname : c.name = "full_name")
    (hnopat : detect_pattern_based matcher c = (none, 0)) :
    detect_column_name_heuristic "full_name" = (some "NAME", 9/10) ∧
    ∃ f, analyzeColumn matcher c = some f ∧ f.piiType = "NAME" ∧
      f.detectionMethod = "Column Name Heuristic" ∧
      f.confidence = 9/10 ∧ f.impact = 3 := by
  have hdet : detect_column_name_heuristic "full_name" =
      (some "NAME", 9/10) := by
    with_unfolding_all rfl
  refine ⟨hdet, ?_⟩
  have hdet' : detect_column_name_heuristic c.name = (some "NAME", 9/10) := by
    rw [hname]
    exact hdet
  have hle : ¬ (detect_pattern_based matcher c).2 > (9/10 : ℚ) := by
    rw [hnopat]
    norm_num
  refine ⟨mkFinding c "NAME" (9/10) "Column Name Heuristic",
    analyzeColumn_heuristic_case hdet' hle (by norm_num), rfl, rfl, rfl, ?_⟩
  rfl

/-- Witness for C6 amended: matcher that never fires, one free-text cell. -/
theorem c6_full_name_amended_witness :
    detect_column_name_heuristic "full_name" = (some "NAME", 9/10) ∧
    ∃ f, analyzeColumn (fun _ _ => false)
        ⟨"full_name", "object", [some "text value"]⟩ = some f ∧
      f.piiType = "NAME" ∧ f.detectionMethod = "Column Name Heuristic" ∧
      f.confidence = 9/10 ∧ f.impact = 3 :=
  c6_full_name_amended (fun _ _ => false)
    ⟨"full_name", "object", [some "text value"]⟩ rfl
    (by with_unfolding_all rfl)

/-- C5: the heuristic's keyword list is the full (type, keyword) pair list
sorted by keyword length descending (a stable sort: sorted and a
permutation of the original pairs); outside the exclusion list the detector
returns the first pair matching a tier — 0.9 for the whole name, 0.8 for a
delimited token, 0.7 for the first or last underscore segment; and for
"employee_id" the keyword "employee_id" wins with an exact match. -/
theorem c5_heuristic_longest_first (name : String)
    (hx : isExcluded (pyStrip (pyLower name)) = false) :
    List.Sorted (fun a b : String × String => b.2.length ≤ a.2.length)
      sorted_items ∧
    sorted_items.Perm all_keyword_pairs ∧
    detect_column_name_heuristic name =
      ((sorted_items.findSome? (fun p =>
        (specTier (pyStrip (pyLower name)) p.2).map
          (fun conf => ((some p.1 : Option String), conf)))).getD
        ((none : Option String), (0 : ℚ))) ∧
    detect_column_name_heuristic "employee_id" = (some "ID", 9/10) := by
  refine ⟨?_, ?_, ?_, ?_⟩
  · haveI h1 : IsTotal (String × String)
        (fun a b => b.2.length ≤ a.2.length) :=
      ⟨fun a b => le_total b.2.length a.2.length⟩
    haveI h2 : IsTrans (String × String)
        (fun a b => b.2.length ≤ a.2.length) :=
      ⟨fun a b c hab hbc => le_trans hbc hab⟩
    exact List.sorted_insertionSort _ _
  · exact List.perm_insertionSort _ _
  · unfold detect_column_name_heuristic
    dsimp only
    rw [if_neg (by simp [hx])]
    exact matchLoop_eq_spec _ sorted_items
  · with_unfolding_all rfl

/-- Witness for C5 at the column name "employee_id". -/
theorem c5_heuristic_longest_first_witness :
    detect_column_name_heuristic "employee_id" = (some "ID", 9/10) :=
  (c5_heuristic_longest_first "employee_id" (by rfl)).2.2.2

/-- C3: on a textual column with at least one non-missing value the Pattern
Detector behaves exactly as the claim describes: it returns no detection
whenever the mean string length exceeds 500, and otherwise selects among
the candidates (ratio above 0.3, first sampled value at most 200 chars) the
first priority-order type with ratio above 0.5 — with the highest-ratio
fallback and the no-detection default — as transcribed in
`specPatternDetect`. -/
theorem c3_pattern_detector_refines_spec (matcher : Matcher) (c : Column)
    (hdt : c.dtype = "object" ∨ c.dtype = "string")
    (hne : stringData c ≠ []) :
    detect_pattern_based matcher c =
      specPatternDetect matcher (stringData c) ∧
    (avgLength (stringData c) > 500 →
      detect_pattern_based matcher c = (none, 0)) := by
  refine ⟨detect_pattern_based_eq_spec matcher c hdt hne, ?_⟩
  intro havg
  unfold detect_pattern_based
  rw [if_neg (not_not_intro hdt)]
  dsimp only
  rw [if_neg (by simpa using hne), if_pos havg]

/-- Witness for C3 on an always-matching oracle and a one-cell column. -/
theorem c3_pattern_detector_refines_spec_witness :
    detect_pattern_based (fun _ _ => true) ⟨"xyz", "object", [some "a@b.co"]⟩ =
      specPatternDetect (fun _ _ => true)
        (stringData ⟨"xyz", "object", [some "a@b.co"]⟩) ∧
    (avgLength (stringData ⟨"xyz", "object", [some "a@b.co"]⟩) > 500 →
      detect_pattern_based (fun _ _ => true)
        ⟨"xyz", "object", [some "a@b.co"]⟩ = (none, 0)) :=
  c3_pattern_detector_refines_spec (fun _ _ => true)
    ⟨"xyz", "object", [some "a@b.co"]⟩ (Or.inl rfl) (by decide)

end PII
